import Mathlib

/-!
Verification development for the Planet Postcard Forge core
(src/src/app/page.tsx).  The definitions below are a shallow embedding of
the place-resolution pipeline, the geographic box calculator, the imagery
request builder, the chip compositor and the download-filename logic.
Network calls are modelled as oracle functions passed in as parameters.
-/

/-- The two UI languages of the application. -/
inductive Lang where
  | ja
  | en
deriving DecidableEq

/-- The other language, as computed in onGenerate (lang === "ja" ? "en" : "ja"). -/
def altLang : Lang → Lang
  | Lang.ja => Lang.en
  | Lang.en => Lang.ja

/-- The static Japanese-to-English place name dictionary (placeNameDict). -/
def placeNameDict : List (String × String) :=
  [("アイルランド", "Ireland"),
   ("イギリス", "United Kingdom"),
   ("フランス", "France"),
   ("ドイツ", "Germany"),
   ("イタリア", "Italy"),
   ("スペイン", "Spain"),
   ("アメリカ", "United States"),
   ("カナダ", "Canada"),
   ("オーストラリア", "Australia"),
   ("ニュージーランド", "New Zealand"),
   ("中国", "China"),
   ("韓国", "South Korea"),
   ("台湾", "Taiwan"),
   ("タイ", "Thailand"),
   ("インド", "India"),
   ("ロシア", "Russia"),
   ("ブラジル", "Brazil"),
   ("メキシコ", "Mexico"),
   ("エジプト", "Egypt"),
   ("南アフリカ", "South Africa"),
   ("南極", "Antarctica"),
   ("昭和基地", "Showa Station"),
   ("マクマード基地", "McMurdo Station"),
   ("大阪", "Osaka"),
   ("京都", "Kyoto"),
   ("名古屋", "Nagoya"),
   ("横浜", "Yokohama"),
   ("神戸", "Kobe"),
   ("福岡", "Fukuoka"),
   ("札幌", "Sapporo"),
   ("仙台", "Sendai")]

/-- Exact-key lookup in the dictionary, the meaning of placeNameDict[place]. -/
def dictLookup (place : String) : Option String :=
  (placeNameDict.find? (fun p => p.1 == place)).map (fun p => p.2)

/-- getSearchTerm from the source: the dictionary translation is consulted
only when the requested language is "ja" and the entry is truthy. -/
def getSearchTerm (place : String) (lang : Lang) : String :=
  if lang = Lang.ja then
    match dictLookup place with
    | some t => if t = "" then place else t
    | none => place
  else place

/-- The fallback chain of onGenerate, with the list of (term, language)
search calls actually issued recorded alongside the final title.  The
search oracle stands for wikiSearchTitle's network result. -/
def resolveTrace (search : String → Lang → Option String) (place : String)
    (lang : Lang) : List (String × Lang) × Option String :=
  let searchTerm := getSearchTerm place lang
  let s1 := search searchTerm lang
  let step2 : List (String × Lang) × Option String :=
    if s1 = none ∧ searchTerm ≠ place then ([(place, lang)], search place lang)
    else ([], s1)
  let step3 : List (String × Lang) × Option String :=
    if step2.2 = none ∧ lang ≠ Lang.en then
      ([(searchTerm, Lang.en)], search searchTerm Lang.en)
    else ([], step2.2)
  let step4 : List (String × Lang) × Option String :=
    if step3.2 = none then ([(place, altLang lang)], search place (altLang lang))
    else ([], step3.2)
  ((searchTerm, lang) :: (step2.1 ++ step3.1 ++ step4.1), step4.2)

/-- The four fallback stages of the claim, as (term, language) queries:
translated term in the requested language, original text in the requested
language, translated term in the fallback language (when the requested
language is not the fallback), original text in the other language. -/
def stageQueries (place : String) (lang : Lang) : List (String × Lang) :=
  [(getSearchTerm place lang, lang), (place, lang)] ++
    (if lang ≠ Lang.en then [(getSearchTerm place lang, Lang.en)] else []) ++
    [(place, altLang lang)]

/-- needle is a prefix of hay (on character lists). -/
def listPre : List Char → List Char → Bool
  | [], _ => true
  | _ :: _, [] => false
  | a :: as, b :: bs => a == b && listPre as bs

/-- needle occurs as a contiguous substring of hay (on character lists). -/
def listSub (needle : List Char) : List Char → Bool
  | [] => needle.isEmpty
  | b :: bs => listPre needle (b :: bs) || listSub needle bs

/-- Lowercased character sequence of a string, modelling toLowerCase(). -/
def lowerChars (s : String) : List Char := s.data.map Char.toLower

/-- Case-insensitive equality, the meaning of
title.toLowerCase() === q.toLowerCase(). -/
def lowerEq (t q : String) : Bool := lowerChars t == lowerChars q

/-- Case-insensitive containment, the meaning of
title.toLowerCase().includes(q.toLowerCase()). -/
def lowerIncl (t q : String) : Bool := listSub (lowerChars q) (lowerChars t)

/-- The predicate passed to results.find in wikiSearchTitle. -/
def titleMatches (q t : String) : Bool := lowerEq t q || lowerIncl t q

/-- JavaScript a || b on an optional string: an absent or empty (falsy)
left operand falls through to the right operand. -/
def jsOrTitle (a b : Option String) : Option String :=
  match a with
  | some s => if s = "" then b else some s
  | none => b

/-- wikiSearchTitle's selection over the ranked result list of titles:
undefined on an empty list, else find-first-match or the top result. -/
def wikiSearchTitle (q : String) (results : List String) : Option String :=
  if results = [] then none
  else jsOrTitle (results.find? (fun t => titleMatches q t)) results.head?

/-- Modelled from the claim wording: a two-tier preference that first looks
for a case-insensitive exact title match anywhere in the list, then for a
containing title, then takes the top-ranked result. -/
def prefSelect (q : String) (results : List String) : Option String :=
  match results.find? (fun t => lowerEq t q) with
  | some t => some t
  | none =>
    match results.find? (fun t => lowerIncl t q) with
    | some t => some t
    | none => results.head?

/-- The amended selection rule: the first result (in rank order) whose
title case-insensitively contains the query text, else the top-ranked
result, with an empty selected title falling back to the top result. -/
def amendedSelect (q : String) (results : List String) : Option String :=
  if results = [] then none
  else jsOrTitle (results.find? (fun t => lowerIncl t q)) results.head?

/-- The fact set returned by wikidataFacts: label, country, population and
elevation, each independently optional. -/
structure FactSet where
  label : Option String
  country : Option String
  population : Option Int
  elev : Option Int
deriving DecidableEq

/-- The empty fact set, the value wikidataFacts yields when the knowledge
base returns no row. -/
def emptyFacts : FactSet := FactSet.mk none none none none

/-- The result of wikiTitleToCoordAndQid: coordinates plus an optional
Wikidata identifier. -/
structure CoordQ where
  lat : ℚ
  lon : ℚ
  qid : Option String
deriving DecidableEq

/-- The page state touched by onGenerate: the current center point and the
current fact set. -/
structure PipelineState where
  center : Option (ℚ × ℚ)
  facts : FactSet
deriving DecidableEq

/-- How one run of onGenerate ends. -/
inductive Outcome where
  | ok
  | placeNotFound
  | coordsUnavailable
deriving DecidableEq

/-- The observable result of one run of onGenerate: the state afterwards,
the outcome, the coordinate lookups issued (title, language), and the
imagery request that the snapshot effect will build, when one is built. -/
structure RunResult where
  state : PipelineState
  outcome : Outcome
  coordCalls : List (String × Lang)
  request : Option (List (String × String))
deriving DecidableEq

/-- Facts after a successful coordinate resolution: the source calls
wikidataFacts only when a qid is present, otherwise setFacts never runs
and the prior facts stay. -/
def factsAfter (factsOf : String → Lang → FactSet) (lang : Lang)
    (qid : Option String) (prior : FactSet) : FactSet :=
  match qid with
  | some q => factsOf q lang
  | none => prior

/-- One run of onGenerate over oracles for the three network calls, plus a
request builder standing for the bbox-and-buildWvsUrl snapshot effect that
fires exactly when a new center is set. -/
def runPipeline (search : String → Lang → Option String)
    (coordOf : String → Lang → Option CoordQ)
    (factsOf : String → Lang → FactSet)
    (mkRequest : ℚ × ℚ → List (String × String))
    (place : String) (lang : Lang) (st : PipelineState) : RunResult :=
  match (resolveTrace search place lang).2 with
  | none => RunResult.mk st Outcome.placeNotFound [] none
  | some title =>
    match coordOf title lang with
    | some c =>
      RunResult.mk
        (PipelineState.mk (some (c.lat, c.lon)) (factsAfter factsOf lang c.qid st.facts))
        Outcome.ok [(title, lang)] (some (mkRequest (c.lat, c.lon)))
    | none =>
      if lang ≠ Lang.en then
        match coordOf title Lang.en with
        | some c =>
          RunResult.mk
            (PipelineState.mk (some (c.lat, c.lon)) (factsAfter factsOf lang c.qid st.facts))
            Outcome.ok [(title, lang), (title, Lang.en)] (some (mkRequest (c.lat, c.lon)))
        | none =>
          RunResult.mk st Outcome.coordsUnavailable [(title, lang), (title, Lang.en)] none
      else RunResult.mk st Outcome.coordsUnavailable [(title, lang)] none

/-- A geographic bounding box in degrees. -/
structure GeoBox where
  south : ℝ
  west : ℝ
  north : ℝ
  east : ℝ

/-- degPerKmAtLat from the source: degrees of latitude and of longitude
per kilometre at the given latitude. -/
noncomputable def degPerKmAtLat (lat : ℝ) : ℝ × ℝ :=
  (1 / 110.574, 1 / (111.320 * Real.cos (lat * Real.pi / 180)))

/-- The bbox computation from the page: half extents are scaleKm times the
degrees-per-km factors divided by two, centred on the point. -/
noncomputable def bbox (lat lon scaleKm : ℝ) : GeoBox :=
  let d := degPerKmAtLat lat
  let halfLat := scaleKm * d.1 / 2
  let halfLon := scaleKm * d.2 / 2
  GeoBox.mk (lat - halfLat) (lon - halfLon) (lat + halfLat) (lon + halfLon)

/-- Default imagery layers of buildWvsUrl. -/
def defaultLayers : List String :=
  ["MODIS_Terra_CorrectedReflectance_TrueColor", "Coastlines"]

/-- Default imagery output format of buildWvsUrl. -/
def defaultFormat : String := "image/png"

/-- Default imagery width of buildWvsUrl. -/
def defaultWidth : Nat := 1600

/-- Default imagery height of buildWvsUrl. -/
def defaultHeight : Nat := 900

/-- buildWvsUrl as the ordered parameter list handed to URLSearchParams;
numStr stands for JavaScript number-to-string conversion. -/
def buildWvsUrl (numStr : ℚ → String) (south west north east : ℚ)
    (date : String) (width height : Nat) (layers : List String)
    (format : String) : List (String × String) :=
  [("REQUEST", "GetSnapshot"),
   ("TIME", date),
   ("BBOX", numStr south ++ "," ++ numStr west ++ "," ++ numStr north ++ "," ++ numStr east),
   ("CRS", "EPSG:4326"),
   ("LAYERS", String.intercalate "," layers),
   ("FORMAT", format),
   ("WIDTH", toString width),
   ("HEIGHT", toString height)]

/-- A fact chip on the postcard, tagged by kind with its rendered text. -/
inductive Chip where
  | population : String → Chip
  | elevation : String → Chip
  | dateChip : String → Chip
deriving DecidableEq

/-- The chip rows built in rebuildSnapshot: a population chip when the
population is truthy, an elevation chip when the elevation is non-null,
then always the date chip.  fmtNum is Intl.NumberFormat, fmtDate is
toLocaleDateString. -/
def chips (fmtNum : Int → String) (fmtDate : String → String)
    (facts : FactSet) (date : String) : List Chip :=
  (match facts.population with
   | some p => if p = 0 then [] else [Chip.population ("人口 " ++ fmtNum p ++ "人")]
   | none => []) ++
  (match facts.elev with
   | some e => [Chip.elevation ("標高 " ++ toString e ++ "m")]
   | none => []) ++
  [Chip.dateChip (fmtDate date)]

/-- The replacement of /[^...]+/gu runs by a single underscore: a maximal
run of characters rejected by keep collapses to one underscore.  The
Boolean flag records being inside such a run. -/
def sanitizeAux (keep : Char → Bool) : List Char → Bool → List Char
  | [], _ => []
  | c :: rest, inRun =>
    if keep c then c :: sanitizeAux keep rest false
    else if inRun then sanitizeAux keep rest true
    else '_' :: sanitizeAux keep rest true

/-- String sanitization used for the download filename, parameterized by
the character class kept by the regular expression. -/
def sanitize (keep : Char → Bool) (s : String) : String :=
  String.mk (sanitizeAux keep s.data false)

/-- JavaScript a || b on strings: an empty (falsy) left operand falls
through to the right operand. -/
def jsOrS (a b : String) : String := if a = "" then b else a

/-- The base title of downloadPng: facts.label || place || "postcard". -/
def safeTitle (keep : Char → Bool) (label : Option String) (place : String) : String :=
  sanitize keep (jsOrS (label.getD "") (jsOrS place "postcard"))

/-- The download filename built in downloadPng. -/
def downloadName (keep : Char → Bool) (label : Option String)
    (place date : String) : String :=
  safeTitle keep label place ++ "_" ++ date ++ ".png"

/-- Modelled from the claim wording: the facts label whenever present,
else the query text if non-empty, else the literal postcard. -/
def claimDownloadName (keep : Char → Bool) (label : Option String)
    (place date : String) : String :=
  (match label with
   | some s => sanitize keep s
   | none => sanitize keep (if place ≠ "" then place else "postcard")) ++
  "_" ++ date ++ ".png"

/-- The amended filename rule: the facts label if present and non-empty,
else the query text if non-empty, else the literal postcard. -/
def amendedDownloadName (keep : Char → Bool) (label : Option String)
    (place date : String) : String :=
  (match label with
   | some s =>
     if s ≠ "" then sanitize keep s
     else sanitize keep (if place ≠ "" then place else "postcard")
   | none => sanitize keep (if place ≠ "" then place else "postcard")) ++
  "_" ++ date ++ ".png"

/-- An ASCII instance of the kept character class: letters, digits,
underscore and hyphen. -/
def asciiKeep (c : Char) : Bool := c.isAlphanum || c == '_' || c == '-'

theorem listPre_self (l : List Char) : listPre l l = true := by
  induction l with
  | nil => rfl
  | cons a as ih => simp [listPre, ih]

theorem listSub_self (l : List Char) : listSub l l = true := by
  cases l with
  | nil => rfl
  | cons a as => simp [listSub, listPre_self]

theorem titleMatches_eq_lowerIncl (q t : String) :
    titleMatches q t = lowerIncl t q := by
  unfold titleMatches
  cases h : lowerEq t q with
  | false => simp
  | true =>
    have he : lowerChars t = lowerChars q := by
      exact eq_of_beq h
    simp only [Bool.true_or]
    unfold lowerIncl
    rw [he, listSub_self]

theorem jsOrTitle_ne_none (x : Option String) (a : String) :
    jsOrTitle x (some a) ≠ none := by
  cases x with
  | none => simp [jsOrTitle]
  | some s =>
    by_cases hs : s = "" <;> simp [jsOrTitle, hs]

/-- C2: the claim states a two-tier preference, exact case-insensitive
match anywhere in the list before any merely-containing title.  The code
uses one find with a disjunctive predicate, so an earlier containing title
beats a later exact match: at query Ab over ranked results xAby then ab,
the code returns xAby while the claimed rule returns ab. -/
theorem wikiSearchTitle_preference_cex :
    wikiSearchTitle "Ab" ["xAby", "ab"] = some "xAby" ∧
    prefSelect "Ab" ["xAby", "ab"] = some "ab" ∧
    wikiSearchTitle "Ab" ["xAby", "ab"] ≠ prefSelect "Ab" ["xAby", "ab"] :=
  ⟨by decide, by decide, by decide⟩

/-- C2 amended: a single search call selects the first result in rank
order whose title case-insensitively contains the query text (an exact
match being a special case of containment), with an empty selected title
falling back to the top-ranked result, else the top-ranked result; and it
returns undefined exactly when the result list is empty. -/
theorem wikiSearchTitle_amended (q : String) (rs : List String) :
    wikiSearchTitle q rs = amendedSelect q rs ∧
    (wikiSearchTitle q rs = none ↔ rs = []) := by
  constructor
  · unfold wikiSearchTitle amendedSelect
    have h : (fun t => titleMatches q t) = (fun t => lowerIncl t q) :=
      funext fun t => titleMatches_eq_lowerIncl q t
    rw [h]
  · cases rs with
    | nil => simp [wikiSearchTitle]
    | cons a as =>
      simp only [wikiSearchTitle]
      have hne : (a :: as) ≠ ([] : List String) := by simp
      rw [if_neg hne]
      simp only [List.head?_cons]
      constructor
      · intro hcontra
        exact absurd hcontra (jsOrTitle_ne_none _ a)
      · intro hcontra
        exact absurd hcontra hne

/-- C3: the claim says the dictionary translation is used in the first
search stage regardless of the requested language, but getSearchTerm
consults the dictionary only when the language is ja: for the dictionary
entry 大阪 with requested language en, the first stage searches the
original text, not the translation Osaka. -/
theorem getSearchTerm_cex :
    dictLookup "大阪" = some "Osaka" ∧
    (resolveTrace (fun _ _ => none) "大阪" Lang.en).1.head? =
      some ("大阪", Lang.en) ∧
    ("大阪" : String) ≠ "Osaka" :=
  ⟨by decide, by decide, by decide⟩

/-- C3 amended: for a query with an exact-match dictionary entry, the
first search stage uses the translated term when the requested language
is ja; when the requested language is en the original text is used. -/
theorem getSearchTerm_amended (place t : String)
    (search : String → Lang → Option String)
    (hd : dictLookup place = some t) (ht : t ≠ "") :
    getSearchTerm place Lang.ja = t ∧
    getSearchTerm place Lang.en = place ∧
    (resolveTrace search place Lang.ja).1.head? = some (t, Lang.ja) ∧
    (resolveTrace search place Lang.en).1.head? = some (place, Lang.en) := by
  have h1 : getSearchTerm place Lang.ja = t := by simp [getSearchTerm, hd, ht]
  have h2 : getSearchTerm place Lang.en = place := by simp [getSearchTerm]
  refine ⟨h1, h2, ?_, ?_⟩
  · simp [resolveTrace, h1]
  · simp [resolveTrace, h2]

theorem getSearchTerm_amended_witness :
    getSearchTerm "大阪" Lang.ja = "Osaka" ∧
    getSearchTerm "大阪" Lang.en = "大阪" ∧
    (resolveTrace (fun _ _ => none) "大阪" Lang.ja).1.head? =
      some ("Osaka", Lang.ja) ∧
    (resolveTrace (fun _ _ => none) "大阪" Lang.en).1.head? =
      some ("大阪", Lang.en) :=
  getSearchTerm_amended "大阪" "Osaka" (fun _ _ => none) (by decide) (by decide)

/-- C1: for a query absent from the dictionary, when every underlying
search call returns no result the resolver returns none, the exact search
calls issued are listed, and every one of the four fallback stage queries
(translated term and original text coincide for such a query) is among
the calls issued before returning none; and the resolver short-circuits,
returning on the first stage when that stage yields a candidate. -/
theorem placeSearch_fallback (place : String) (lang : Lang)
    (hd : dictLookup place = none) :
    (∀ search : String → Lang → Option String,
      (∀ q l, search q l = none) →
      (resolveTrace search place lang).2 = none ∧
      (resolveTrace search place lang).1 =
        (match lang with
         | Lang.ja => [(place, Lang.ja), (place, Lang.en), (place, Lang.en)]
         | Lang.en => [(place, Lang.en), (place, Lang.ja)]) ∧
      ∀ q ∈ stageQueries place lang, q ∈ (resolveTrace search place lang).1) ∧
    (∀ (search : String → Lang → Option String) (t : String),
      search place lang = some t →
      resolveTrace search place lang = ([(place, lang)], some t)) := by
  have hterm : ∀ l, getSearchTerm place l = place := by
    intro l; cases l <;> simp [getSearchTerm, hd]
  constructor
  · intro search hs
    cases lang <;>
      simp [resolveTrace, hterm, hs, stageQueries, altLang]
  · intro search t hst
    cases lang <;> simp [resolveTrace, hterm, hst]

theorem placeSearch_fallback_witness :
    ((resolveTrace (fun _ _ => none) "Q7" Lang.ja).2 = none ∧
     (resolveTrace (fun _ _ => none) "Q7" Lang.ja).1 =
       [("Q7", Lang.ja), ("Q7", Lang.en), ("Q7", Lang.en)] ∧
     ∀ q ∈ stageQueries "Q7" Lang.ja,
       q ∈ (resolveTrace (fun _ _ => none) "Q7" Lang.ja).1) ∧
    resolveTrace (fun _ l => if l = Lang.ja then some "Tokyo" else none)
        "Q7" Lang.ja = ([("Q7", Lang.ja)], some "Tokyo") := by
  have h := placeSearch_fallback "Q7" Lang.ja (by decide)
  refine ⟨?_, ?_⟩
  · have h1 := h.1 (fun _ _ => none) (fun _ _ => rfl)
    exact ⟨h1.1, h1.2.1, h1.2.2⟩
  · exact h.2 (fun _ l => if l = Lang.ja then some "Tokyo" else none)
      "Tokyo" (by decide)

/-- C4: the coordinate lookup runs first in the requested language; when
that page has no coordinates and the requested language is not en the
same lookup is retried once in en; when both fail the run ends with
coordinates unavailable, the state (center and facts) is unchanged and no
imagery request is built. -/
theorem coordResolution_failure
    (search : String → Lang → Option String)
    (coordOf : String → Lang → Option CoordQ)
    (factsOf : String → Lang → FactSet)
    (mkRequest : ℚ × ℚ → List (String × String))
    (place : String) (lang : Lang) (st : PipelineState) (title : String)
    (hres : (resolveTrace search place lang).2 = some title)
    (h1 : coordOf title lang = none)
    (h2 : coordOf title Lang.en = none) :
    runPipeline search coordOf factsOf mkRequest place lang st =
      RunResult.mk st Outcome.coordsUnavailable
        ((title, lang) :: (if lang ≠ Lang.en then [(title, Lang.en)] else []))
        none := by
  cases lang <;> simp [runPipeline, hres, h1, h2]

theorem coordResolution_failure_witness :
    runPipeline (fun _ _ => some "T") (fun _ _ => none)
        (fun _ _ => emptyFacts) (fun _ => []) "X" Lang.ja
        (PipelineState.mk none emptyFacts) =
      RunResult.mk (PipelineState.mk none emptyFacts)
        Outcome.coordsUnavailable [("T", Lang.ja), ("T", Lang.en)] none :=
  coordResolution_failure (fun _ _ => some "T") (fun _ _ => none)
    (fun _ _ => emptyFacts) (fun _ => []) "X" Lang.ja
    (PipelineState.mk none emptyFacts) "T" (by decide) rfl rfl

/-- C5 counterexample: a successful query whose resolved page carries no
Wikidata identifier keeps the FactSet of the previous query instead of
replacing it, because setFacts only runs when a qid is present.  Here the
run succeeds yet the prior facts (population 5) are carried over. -/
theorem factsCarryOver_cex :
    (runPipeline (fun _ _ => some "T")
        (fun _ _ => some (CoordQ.mk 1 2 none))
        (fun _ _ => emptyFacts) (fun _ => []) "X" Lang.ja
        (PipelineState.mk none (FactSet.mk none none (some 5) none))).outcome =
      Outcome.ok ∧
    (runPipeline (fun _ _ => some "T")
        (fun _ _ => some (CoordQ.mk 1 2 none))
        (fun _ _ => emptyFacts) (fun _ => []) "X" Lang.ja
        (PipelineState.mk none (FactSet.mk none none (some 5) none))).state.facts =
      FactSet.mk none none (some 5) none ∧
    FactSet.mk none none (some 5) none ≠ emptyFacts :=
  ⟨by decide, by decide, by decide⟩

/-- C5 amended: a fact lookup that returns no row is non-fatal and yields
the empty FactSet, and whenever a cross-reference identifier is present
the fact lookup result replaces the prior FactSet entirely; but when the
resolved page carries no identifier the fact lookup is skipped and the
prior FactSet is carried over unchanged. -/
theorem factsReplacement_amended
    (search : String → Lang → Option String)
    (coordOf : String → Lang → Option CoordQ)
    (factsOf : String → Lang → FactSet)
    (mkRequest : ℚ × ℚ → List (String × String))
    (place : String) (lang : Lang) (st : PipelineState) (title : String)
    (c : CoordQ)
    (hres : (resolveTrace search place lang).2 = some title)
    (hc : coordOf title lang = some c) :
    (runPipeline search coordOf factsOf mkRequest place lang st).outcome =
      Outcome.ok ∧
    (∀ q, c.qid = some q →
      (runPipeline search coordOf factsOf mkRequest place lang st).state.facts =
        factsOf q lang) ∧
    (c.qid = none →
      (runPipeline search coordOf factsOf mkRequest place lang st).state.facts =
        st.facts) := by
  refine ⟨by simp [runPipeline, hres, hc], ?_, ?_⟩
  · intro q hq
    simp [runPipeline, hres, hc, factsAfter, hq]
  · intro hq
    simp [runPipeline, hres, hc, factsAfter, hq]

theorem factsReplacement_amended_witness :
    (runPipeline (fun _ _ => some "T")
        (fun _ _ => some (CoordQ.mk 1 2 (some "Q")))
        (fun _ _ => FactSet.mk (some "L") none (some 7) none) (fun _ => [])
        "X" Lang.ja
        (PipelineState.mk none (FactSet.mk none none (some 5) none))).outcome =
      Outcome.ok ∧
    (runPipeline (fun _ _ => some "T")
        (fun _ _ => some (CoordQ.mk 1 2 (some "Q")))
        (fun _ _ => FactSet.mk (some "L") none (some 7) none) (fun _ => [])
        "X" Lang.ja
        (PipelineState.mk none (FactSet.mk none none (some 5) none))).state.facts =
      FactSet.mk (some "L") none (some 7) none := by
  have h := factsReplacement_amended (fun _ _ => some "T")
    (fun _ _ => some (CoordQ.mk 1 2 (some "Q")))
    (fun _ _ => FactSet.mk (some "L") none (some 7) none) (fun _ => [])
    "X" Lang.ja (PipelineState.mk none (FactSet.mk none none (some 5) none))
    "T" (CoordQ.mk 1 2 (some "Q")) (by decide) rfl
  exact ⟨h.1, h.2.1 "Q" rfl⟩

theorem bbox_def (lat lon scaleKm : ℝ) :
    bbox lat lon scaleKm =
      GeoBox.mk (lat - scaleKm * (1 / 110.574) / 2)
        (lon - scaleKm * (1 / (111.320 * Real.cos (lat * Real.pi / 180))) / 2)
        (lat + scaleKm * (1 / 110.574) / 2)
        (lon + scaleKm * (1 / (111.320 * Real.cos (lat * Real.pi / 180))) / 2) :=
  rfl

theorem cosLat_pos (lat : ℝ) (h1 : -89 < lat) (h2 : lat < 89) :
    0 < Real.cos (lat * Real.pi / 180) := by
  have hπ := Real.pi_pos
  apply Real.cos_pos_of_mem_Ioo
  refine Set.mem_Ioo.mpr ⟨?_, ?_⟩
  · have hp : (0:ℝ) < (lat + 90) * Real.pi := mul_pos (by linarith) hπ
    nlinarith [hp]
  · have hp : (0:ℝ) < (90 - lat) * Real.pi := mul_pos (by linarith) hπ
    nlinarith [hp]

/-- C6: for latitudes strictly between -89 and 89 and a positive radius
the computed box is non-degenerate (south strictly below north, west
strictly below east), symmetric about the center, and its half extents
are radius over two times the degree-per-km factors of the source. -/
theorem geoBox_props (lat lon scaleKm : ℝ)
    (h1 : -89 < lat) (h2 : lat < 89) (h3 : 0 < scaleKm) :
    (bbox lat lon scaleKm).south < (bbox lat lon scaleKm).north ∧
    (bbox lat lon scaleKm).west < (bbox lat lon scaleKm).east ∧
    (bbox lat lon scaleKm).north - lat = lat - (bbox lat lon scaleKm).south ∧
    (bbox lat lon scaleKm).east - lon = lon - (bbox lat lon scaleKm).west ∧
    (bbox lat lon scaleKm).north - lat = scaleKm / 2 * (1 / 110.574) ∧
    (bbox lat lon scaleKm).east - lon =
      scaleKm / 2 * (1 / (111.320 * Real.cos (lat * Real.pi / 180))) := by
  have hcos := cosLat_pos lat h1 h2
  have hlatpos : (0:ℝ) < scaleKm * (1 / 110.574) / 2 := by positivity
  have hden : (0:ℝ) < 111.320 * Real.cos (lat * Real.pi / 180) :=
    mul_pos (by norm_num) hcos
  have hfrac : (0:ℝ) < 1 / (111.320 * Real.cos (lat * Real.pi / 180)) :=
    one_div_pos.mpr hden
  have hlonpos :
      (0:ℝ) < scaleKm * (1 / (111.320 * Real.cos (lat * Real.pi / 180))) / 2 :=
    div_pos (mul_pos h3 hfrac) (by norm_num)
  rw [bbox_def]
  dsimp only
  refine ⟨by linarith, by linarith, by ring, by ring, by ring, by ring⟩

theorem geoBox_props_witness :
    (bbox 0 0 1).south < (bbox 0 0 1).north ∧
    (bbox 0 0 1).west < (bbox 0 0 1).east ∧
    (bbox 0 0 1).north - 0 = 0 - (bbox 0 0 1).south ∧
    (bbox 0 0 1).east - 0 = 0 - (bbox 0 0 1).west ∧
    (bbox 0 0 1).north - 0 = 1 / 2 * (1 / 110.574) ∧
    (bbox 0 0 1).east - 0 =
      1 / 2 * (1 / (111.320 * Real.cos (0 * Real.pi / 180))) :=
  geoBox_props 0 0 1 (by norm_num) (by norm_num) (by norm_num)

theorem lonExtent_eq (lat lon scaleKm : ℝ) :
    (bbox lat lon scaleKm).east - (bbox lat lon scaleKm).west =
      scaleKm * (1 / (111.320 * Real.cos (lat * Real.pi / 180))) := by
  rw [bbox_def]
  dsimp only
  ring

/-- C7: at a fixed positive radius, the longitude extent of the box grows
strictly with the absolute latitude, for latitudes strictly between -89
and 89, because the cosine factor shrinks. -/
theorem geoBox_lon_narrowing (lat1 lat2 lon1 lon2 scaleKm : ℝ)
    (h3 : 0 < scaleKm) (ha1 : -89 < lat1) (ha2 : lat1 < 89)
    (hb1 : -89 < lat2) (hb2 : lat2 < 89) (habs : |lat1| < |lat2|) :
    (bbox lat1 lon1 scaleKm).east - (bbox lat1 lon1 scaleKm).west <
      (bbox lat2 lon2 scaleKm).east - (bbox lat2 lon2 scaleKm).west := by
  rw [lonExtent_eq, lonExtent_eq]
  have hπ := Real.pi_pos
  have hc1 := cosLat_pos lat1 ha1 ha2
  have hc2 := cosLat_pos lat2 hb1 hb2
  have habs2 : |lat2| < 89 := abs_lt.mpr ⟨hb1, hb2⟩
  have e1 : |lat1 * Real.pi / 180| = |lat1| * Real.pi / 180 := by
    rw [abs_div, abs_mul, abs_of_pos hπ]
    norm_num
  have e2 : |lat2 * Real.pi / 180| = |lat2| * Real.pi / 180 := by
    rw [abs_div, abs_mul, abs_of_pos hπ]
    norm_num
  have hxy : |lat1 * Real.pi / 180| < |lat2 * Real.pi / 180| := by
    rw [e1, e2]
    exact (div_lt_div_iff_of_pos_right (by norm_num)).mpr
      (mul_lt_mul_of_pos_right habs hπ)
  have hy : |lat2 * Real.pi / 180| ≤ Real.pi := by
    rw [e2]
    nlinarith [mul_pos (show (0:ℝ) < 180 - |lat2| by linarith) hπ]
  have hcoslt :
      Real.cos (lat2 * Real.pi / 180) < Real.cos (lat1 * Real.pi / 180) := by
    have h := Real.cos_lt_cos_of_nonneg_of_le_pi (abs_nonneg _) hy hxy
    rwa [Real.cos_abs, Real.cos_abs] at h
  have hd2 : (0:ℝ) < 111.320 * Real.cos (lat2 * Real.pi / 180) :=
    mul_pos (by norm_num) hc2
  have hlt : 111.320 * Real.cos (lat2 * Real.pi / 180) <
      111.320 * Real.cos (lat1 * Real.pi / 180) :=
    (mul_lt_mul_left (by norm_num)).mpr hcoslt
  have hfr : 1 / (111.320 * Real.cos (lat1 * Real.pi / 180)) <
      1 / (111.320 * Real.cos (lat2 * Real.pi / 180)) :=
    one_div_lt_one_div_of_lt hd2 hlt
  exact (mul_lt_mul_left h3).mpr hfr

theorem geoBox_lon_narrowing_witness :
    (bbox 0 0 1).east - (bbox 0 0 1).west <
      (bbox 45 0 1).east - (bbox 45 0 1).west :=
  geoBox_lon_narrowing 0 45 0 0 1 (by norm_num) (by norm_num) (by norm_num)
    (by norm_num) (by norm_num)
    (by rw [abs_zero, abs_of_pos] <;> norm_num)

theorem intercalate_four (a b c d : String) :
    String.intercalate "," [a, b, c, d] = a ++ "," ++ b ++ "," ++ c ++ "," ++ d := by
  simp [String.intercalate, String.intercalate.go, String.append_assoc]

/-- C8: the imagery request is the ordered field list REQUEST, TIME, BBOX,
CRS, LAYERS, FORMAT, WIDTH, HEIGHT; the bounding box value is the
comma-joined south,west,north,east string in that order; the layer list is
comma-joined preserving order; the default layer list has exactly the
true-color composite followed by the coastline overlay and the default
format is the lossless PNG raster format. -/
theorem imagery_request_fields
    (numStr : ℚ → String) (south west north east : ℚ) (date : String)
    (width height : Nat) (layers : List String) (format : String) :
    (buildWvsUrl numStr south west north east date width height layers
        format).map Prod.fst =
      ["REQUEST", "TIME", "BBOX", "CRS", "LAYERS", "FORMAT", "WIDTH", "HEIGHT"] ∧
    buildWvsUrl numStr south west north east date width height layers format =
      [("REQUEST", "GetSnapshot"),
       ("TIME", date),
       ("BBOX", String.intercalate ","
          [numStr south, numStr west, numStr north, numStr east]),
       ("CRS", "EPSG:4326"),
       ("LAYERS", String.intercalate "," layers),
       ("FORMAT", format),
       ("WIDTH", toString width),
       ("HEIGHT", toString height)] ∧
    defaultLayers.length = 2 ∧
    defaultLayers = ["MODIS_Terra_CorrectedReflectance_TrueColor", "Coastlines"] ∧
    String.intercalate "," defaultLayers =
      "MODIS_Terra_CorrectedReflectance_TrueColor,Coastlines" ∧
    defaultFormat = "image/png" := by
  refine ⟨rfl, ?_, rfl, rfl, by decide, rfl⟩
  rw [intercalate_four]
  rfl

/-- C9 counterexample: a fact set whose population is present with value
zero is dropped by the JavaScript truthiness test, so only the date chip
is emitted even though the claim requires a population chip whenever the
population is present. -/
theorem chips_cex :
    (FactSet.mk none none (some 0) none).population.isSome = true ∧
    chips toString id (FactSet.mk none none (some 0) none) "d" =
      [Chip.dateChip "d"] :=
  ⟨rfl, by decide⟩

/-- C9 amended: chips are emitted in the fixed order population chip (when
the population is present and nonzero), elevation chip (when the elevation
is present), then always the date chip, with a missing fact leaving no
gap: the date chip is always last, the membership biconditionals and the
chip count pin the one- and two-chip lists, and when both facts are shown
the list is exactly population, elevation, date in that order; for
population 37000000 and absent elevation exactly the population chip then
the date chip are emitted. -/
theorem chips_amended (fmtNum : Int → String) (fmtDate : String → String)
    (facts : FactSet) (date : String) :
    (chips fmtNum fmtDate facts date).getLast? =
      some (Chip.dateChip (fmtDate date)) ∧
    ((∃ s, Chip.population s ∈ chips fmtNum fmtDate facts date) ↔
      (∃ p, facts.population = some p ∧ p ≠ 0)) ∧
    ((∃ s, Chip.elevation s ∈ chips fmtNum fmtDate facts date) ↔
      facts.elev.isSome = true) ∧
    (chips fmtNum fmtDate facts date).length =
      (match facts.population with
       | some p => if p = 0 then 0 else 1
       | none => 0) +
      (match facts.elev with
       | some _ => 1
       | none => 0) + 1 ∧
    (∀ p e, facts.population = some p → p ≠ 0 → facts.elev = some e →
      chips fmtNum fmtDate facts date =
        [Chip.population ("人口 " ++ fmtNum p ++ "人"),
         Chip.elevation ("標高 " ++ toString e ++ "m"),
         Chip.dateChip (fmtDate date)]) ∧
    chips fmtNum fmtDate (FactSet.mk none none (some 37000000) none) date =
      [Chip.population ("人口 " ++ fmtNum 37000000 ++ "人"),
       Chip.dateChip (fmtDate date)] := by
  obtain ⟨l, co, p, e⟩ := facts
  cases p with
  | none => cases e <;> simp [chips]
  | some pv =>
    by_cases hp : pv = 0
    · cases e <;> simp [chips, hp]
    · cases e <;> simp [chips, hp]

theorem chips_amended_witness :
    chips toString id (FactSet.mk none none (some 2) (some 3)) "d" =
      [Chip.population ("人口 " ++ toString (2 : Int) ++ "人"),
       Chip.elevation ("標高 " ++ toString (3 : Int) ++ "m"),
       Chip.dateChip (id "d")] :=
  (chips_amended toString id (FactSet.mk none none (some 2) (some 3))
    "d").2.2.2.2.1 2 3 rfl (by decide) rfl

/-- C10 counterexample: the filename base is the JavaScript disjunction
facts.label || place || "postcard", so a present-but-empty label falls
through to the query text, while the claim takes the label whenever it is
present: at label the empty string and query text x the code produces
x_d.png where the claim produces _d.png. -/
theorem downloadName_cex :
    downloadName asciiKeep (some "") "x" "d" = "x_d.png" ∧
    claimDownloadName asciiKeep (some "") "x" "d" = "_d.png" ∧
    downloadName asciiKeep (some "") "x" "d" ≠
      claimDownloadName asciiKeep (some "") "x" "d" :=
  ⟨by decide, by decide, by decide⟩

/-- C10 amended: the filename takes the facts label if present and
non-empty, else the query text if non-empty, else the literal postcard,
replaces each maximal run of characters outside the kept class by one
underscore, and appends an underscore, the date and the png suffix; the
concrete conjunct shows the run collapsing on a b  c. -/
theorem downloadName_amended (keep : Char → Bool) (label : Option String)
    (place date : String) :
    downloadName keep label place date =
      amendedDownloadName keep label place date ∧
    downloadName asciiKeep (some "a b  c") "" "d" = "a_b_c_d.png" := by
  refine ⟨?_, by decide⟩
  cases label with
  | none =>
    by_cases hp : place = "" <;>
      simp [downloadName, amendedDownloadName, safeTitle, jsOrS, hp]
  | some s =>
    by_cases hs : s = ""
    · by_cases hp : place = "" <;>
        simp [downloadName, amendedDownloadName, safeTitle, jsOrS, hs, hp]
    · simp [downloadName, amendedDownloadName, safeTitle, jsOrS, hs]
